import Mathlib

/-!
Shallow embedding of the Santander-Mind-Visual-Favorites board application
(source: src/index.tsx) and verification of its specification claims.

Conventions of the embedding:
* JS strings are Lean `String`s; case-insensitive matching goes through
  character-wise lowercasing (`Char.toLower`), mirroring `String.toLowerCase`
  composed with `String.includes`.
* JS numbers used in exact-algebra claims (pan, zoom, group anchors) are
  modelled as rationals `ℚ`; the wheel zoom factor `1.1` is the rational
  `11/10`.  Orbit positions, which involve `Math.cos`/`Math.sin`, live in `ℝ`.
* React `setGroups`/`setView`/`setTravelingItem` updater functions become pure
  functions from the previous state to the next state.
-/

namespace VF

/-- The `openBehavior` field of a favorite (`'modal' | 'newTab'`). -/
inductive OpenBehavior where
  | modal
  | newTab
deriving DecidableEq

/-- The `type` field of a favorite:
`'web' | 'teams' | 'excel' | 'powerpoint' | 'teamsGroup'`. -/
inductive FavType where
  | web
  | teams
  | excel
  | powerpoint
  | teamsGroup
deriving DecidableEq

/-- The string literal a `FavType` denotes in the source (`fav.type` is a
string union, so `fav.type.toLowerCase()` acts on these literals). -/
def FavType.str : FavType → String
  | .web => "web"
  | .teams => "teams"
  | .excel => "excel"
  | .powerpoint => "powerpoint"
  | .teamsGroup => "teamsGroup"

/-- The `Favorite` record of src/index.tsx. -/
structure Favorite where
  id : String
  type : FavType
  name : String
  url : String
  imageUrl : Option String
  displayText : Option String
  openBehavior : Option OpenBehavior
deriving DecidableEq

/-- The `Group` record of src/index.tsx: anchor coordinates `x`,`y` are
modelled as rationals. -/
structure Group where
  id : String
  name : String
  favorites : List Favorite
  x : ℚ
  y : ℚ
deriving DecidableEq

/-- The `ViewState` record: zoom factor and pan offset. -/
structure ViewState where
  zoom : ℚ
  pan : ℚ × ℚ
deriving DecidableEq

/-- Constant `MIN_ZOOM = 0.2`. -/
def MIN_ZOOM : ℚ := 1/5

/-- Constant `MAX_ZOOM = 3.0`. -/
def MAX_ZOOM : ℚ := 3

/-- Constant `ORBIT_RADIUS = 180` (used in real-valued orbit geometry). -/
noncomputable def ORBIT_RADIUS : ℝ := 180

/-- The world-to-screen mapping of the view transform:
`screen = world * zoom + pan` (spec §4.1; inlined in the source, e.g. in the
`newPan` computation of `handleWheel`, lines 188-189). -/
def worldToScreen (w : ℚ × ℚ) (v : ViewState) : ℚ × ℚ :=
  (w.1 * v.zoom + v.pan.1, w.2 * v.zoom + v.pan.2)

/-- The screen-to-world mapping of the view transform:
`world = (screen - pan) / zoom` (source lines 185-186). -/
def screenToWorld (s : ℚ × ℚ) (v : ViewState) : ℚ × ℚ :=
  ((s.1 - v.pan.1) / v.zoom, (s.2 - v.pan.2) / v.zoom)

/-- The `handleWheel` view update (source lines 175-192): multiply or divide
the zoom by `1.1` according to the wheel direction, clamp to
`[MIN_ZOOM, MAX_ZOOM]`, and recompute the pan so that the world point under
the mouse keeps its screen position.  `mouse` is the cursor position relative
to the canvas origin (`mouseX`/`mouseY` in the source). -/
def handleWheel (v : ViewState) (deltaY : ℚ) (mouse : ℚ × ℚ) : ViewState :=
  let newZoom : ℚ := if deltaY < 0 then v.zoom * (11/10) else v.zoom / (11/10)
  let clampedZoom : ℚ := max MIN_ZOOM (min MAX_ZOOM newZoom)
  let worldX : ℚ := (mouse.1 - v.pan.1) / v.zoom
  let worldY : ℚ := (mouse.2 - v.pan.2) / v.zoom
  { zoom := clampedZoom
    pan := (mouse.1 - worldX * clampedZoom, mouse.2 - worldY * clampedZoom) }

/-- Claim C4: for every view with zoom ≠ 0 and every screen point `P`,
`worldToScreen (screenToWorld P v) v = P`: the two coordinate mappings are
exact algebraic inverses. -/
theorem screen_world_roundtrip (v : ViewState) (P : ℚ × ℚ) (h : v.zoom ≠ 0) :
    worldToScreen (screenToWorld P v) v = P := by
  obtain ⟨px, py⟩ := P
  simp only [worldToScreen, screenToWorld, Prod.mk.injEq]
  constructor <;> field_simp

/-- Witness for C4 at the concrete view `zoom = 1, pan = (0,0)` and screen
point `(3,4)`. -/
theorem screen_world_roundtrip_witness :
    worldToScreen (screenToWorld (3, 4) ⟨1, (0, 0)⟩) ⟨1, (0, 0)⟩ = (3, 4) :=
  screen_world_roundtrip ⟨1, (0, 0)⟩ (3, 4) (by norm_num)

/-- Claim C3: for every view with zoom in `[MIN_ZOOM, MAX_ZOOM]`, every wheel
direction and every cursor point `P`, `handleWheel` produces the clamped zoom
`clamp (zoom * 1.1 or zoom / 1.1) MIN_ZOOM MAX_ZOOM` and a pan under which the
world point that was under `P` before the zoom still maps to screen point `P`. -/
theorem handleWheel_zoom_about_cursor (v : ViewState) (deltaY : ℚ) (P : ℚ × ℚ)
    (h1 : MIN_ZOOM ≤ v.zoom) (h2 : v.zoom ≤ MAX_ZOOM) :
    (handleWheel v deltaY P).zoom =
      max MIN_ZOOM (min MAX_ZOOM (if deltaY < 0 then v.zoom * (11/10) else v.zoom / (11/10))) ∧
    worldToScreen (screenToWorld P v) (handleWheel v deltaY P) = P := by
  refine ⟨rfl, ?_⟩
  obtain ⟨px, py⟩ := P
  simp only [worldToScreen, screenToWorld, handleWheel, Prod.mk.injEq]
  constructor <;> ring

/-- Witness for C3: one zoom-in step at cursor `(100,100)` from the initial
view `zoom = 1, pan = (0,0)`. -/
theorem handleWheel_zoom_about_cursor_witness :
    (handleWheel ⟨1, (0, 0)⟩ (-1) (100, 100)).zoom =
      max MIN_ZOOM (min MAX_ZOOM (if (-1 : ℚ) < 0 then 1 * (11/10) else 1 / (11/10))) ∧
    worldToScreen (screenToWorld (100, 100) ⟨1, (0, 0)⟩)
      (handleWheel ⟨1, (0, 0)⟩ (-1) (100, 100)) = (100, 100) :=
  handleWheel_zoom_about_cursor ⟨1, (0, 0)⟩ (-1) (100, 100)
    (by norm_num [MIN_ZOOM]) (by norm_num [MAX_ZOOM])

/-- The orbit angle of the favorite at index `i` in a group of `count`
favorites: `(i / count) * 2 * Math.PI` (source line 310). -/
noncomputable def orbitAngle (i count : ℕ) : ℝ :=
  ((i : ℝ) / (count : ℝ)) * 2 * Real.pi

/-- The orbit position of the favorite at index `i` in a group of `count`
favorites around anchor `(ax, ay)`:
`(x + ORBIT_RADIUS * cos angle, y + ORBIT_RADIUS * sin angle)`
(source lines 311-314). -/
noncomputable def orbitPos (ax ay : ℚ) (i count : ℕ) : ℝ × ℝ :=
  ((ax : ℝ) + ORBIT_RADIUS * Real.cos (orbitAngle i count),
   (ay : ℝ) + ORBIT_RADIUS * Real.sin (orbitAngle i count))

/-- The per-group part of the `planetPositions` memo (source lines 305-318):
each favorite of a group, in list order, paired with its orbit position. -/
noncomputable def groupOrbitPositions (g : Group) : List (String × (ℝ × ℝ)) :=
  g.favorites.enum.map fun p => (p.2.id, orbitPos g.x g.y p.1 g.favorites.length)

/-- The full `planetPositions` map: the per-group position lists concatenated
in board order; lookups take the last binding of an id, matching JS object
assignment where a later write to `positions[fav.id]` overwrites an earlier
one. -/
noncomputable def planetPositions (gs : List Group) (i : String) : Option (ℝ × ℝ) :=
  ((gs.flatMap groupOrbitPositions).reverse).lookup i

/-- Claim C5: a group with no favorites produces no orbit positions; in a
group with `N ≥ 1` favorites the `i`-th favorite is recorded at
`anchor + ORBIT_RADIUS * (cos θ, sin θ)` with `θ = 2π * i / N`, every orbit
position lies at exact distance `ORBIT_RADIUS` from the group anchor, and
consecutive orbit angles differ by exactly `2π / N`. -/
theorem groupOrbitPositions_spec (g : Group) :
    (g.favorites = [] → groupOrbitPositions g = []) ∧
    (∀ i, ∀ hi : i < g.favorites.length,
      (groupOrbitPositions g)[i]? =
        some ((g.favorites.get ⟨i, hi⟩).id,
          ((g.x : ℝ) + ORBIT_RADIUS * Real.cos (2 * Real.pi * i / g.favorites.length),
           (g.y : ℝ) + ORBIT_RADIUS * Real.sin (2 * Real.pi * i / g.favorites.length))) ∧
      Real.sqrt (((orbitPos g.x g.y i g.favorites.length).1 - (g.x : ℝ)) ^ 2 +
          ((orbitPos g.x g.y i g.favorites.length).2 - (g.y : ℝ)) ^ 2) = ORBIT_RADIUS) ∧
    (0 < g.favorites.length → ∀ i,
      orbitAngle (i + 1) g.favorites.length - orbitAngle i g.favorites.length =
        2 * Real.pi / g.favorites.length) := by
  have hangle : ∀ i : ℕ,
      orbitAngle i g.favorites.length = 2 * Real.pi * i / g.favorites.length := by
    intro i
    simp only [orbitAngle]
    ring
  refine ⟨?_, ?_, ?_⟩
  · intro h
    simp [groupOrbitPositions, h]
  · intro i hi
    constructor
    · simp only [groupOrbitPositions, List.getElem?_map, List.getElem?_enum,
        List.getElem?_eq_getElem hi, Option.map_some', Option.some.injEq]
      rw [orbitPos, hangle]
      simp [List.get_eq_getElem]
    · simp only [orbitPos]
      have hc : ((g.x : ℝ) + ORBIT_RADIUS * Real.cos (orbitAngle i g.favorites.length)
            - (g.x : ℝ)) ^ 2 +
          ((g.y : ℝ) + ORBIT_RADIUS * Real.sin (orbitAngle i g.favorites.length)
            - (g.y : ℝ)) ^ 2 = ORBIT_RADIUS ^ 2 := by
        have hs := Real.sin_sq_add_cos_sq (orbitAngle i g.favorites.length)
        ring_nf
        nlinarith [hs]
      rw [hc]
      exact Real.sqrt_sq (by norm_num [ORBIT_RADIUS])
  · intro hN i
    have hne : (g.favorites.length : ℝ) ≠ 0 := by
      exact_mod_cast Nat.pos_iff_ne_zero.mp hN
    rw [hangle, hangle]
    push_cast
    field_simp
    ring

/-- Witness for C5: a single-favorite group anchored at the origin; its only
favorite sits at angle `0`, distance `ORBIT_RADIUS` from the anchor. -/
theorem groupOrbitPositions_spec_witness :
    (groupOrbitPositions ⟨"g1", "G", [⟨"f1", .web, "n", "u", none, none, none⟩], 0, 0⟩)[0]? =
      some ("f1",
        (((0 : ℚ) : ℝ) + ORBIT_RADIUS * Real.cos (2 * Real.pi * (0 : ℕ) / (1 : ℕ)),
         ((0 : ℚ) : ℝ) + ORBIT_RADIUS * Real.sin (2 * Real.pi * (0 : ℕ) / (1 : ℕ)))) :=
  ((groupOrbitPositions_spec
      ⟨"g1", "G", [⟨"f1", .web, "n", "u", none, none, none⟩], 0, 0⟩).2.1 0
    (by decide)).1

/-- The `isDraggingGroup` branch of `handleMouseMove` (source lines 152-157):
the group at `draggedIndex` gets its anchor set to the anchor recorded at
drag start plus the screen delta divided by the current zoom; all other
groups are returned unchanged. -/
def dragGroupMove (gs : List Group) (draggedIndex : ℕ) (initPos startPos cur : ℚ × ℚ)
    (zoom : ℚ) : List Group :=
  gs.enum.map fun p =>
    if p.1 = draggedIndex then
      { p.2 with
        x := initPos.1 + (cur.1 - startPos.1) / zoom
        y := initPos.2 + (cur.2 - startPos.2) / zoom }
    else p.2

/-- Claim C8: a group-drag move event repositions exactly the dragged group,
setting its anchor to `initial anchor + (current screen - start screen) / zoom`
while keeping its identity, name and favorites, and returns every other group
entirely unchanged. -/
theorem dragGroupMove_spec (gs : List Group) (dIdx : ℕ) (initPos startPos cur : ℚ × ℚ)
    (zoom : ℚ) :
    ∀ i g, gs[i]? = some g →
      (i = dIdx →
        (dragGroupMove gs dIdx initPos startPos cur zoom)[i]? =
          some { g with
            x := initPos.1 + (cur.1 - startPos.1) / zoom
            y := initPos.2 + (cur.2 - startPos.2) / zoom }) ∧
      (i ≠ dIdx →
        (dragGroupMove gs dIdx initPos startPos cur zoom)[i]? = some g) := by
  intro i g hg
  have hbase : (dragGroupMove gs dIdx initPos startPos cur zoom)[i]? =
      some (if i = dIdx then
        { g with
          x := initPos.1 + (cur.1 - startPos.1) / zoom
          y := initPos.2 + (cur.2 - startPos.2) / zoom }
      else g) := by
    simp [dragGroupMove, List.getElem?_map, List.getElem?_enum, hg]
  constructor
  · intro h
    rw [hbase, if_pos h]
  · intro h
    rw [hbase, if_neg h]

/-- Witness for C8: dragging the first of two groups by screen delta `(10,0)`
at zoom `2` moves its anchor by `(5,0)` and leaves the second group alone. -/
theorem dragGroupMove_spec_witness :
    ((dragGroupMove [⟨"g1", "A", [], 1, 2⟩, ⟨"g2", "B", [], 7, 8⟩] 0 (1, 2) (0, 0) (10, 0)
        2)[0]? =
      some { (⟨"g1", "A", [], 1, 2⟩ : Group) with
        x := (1 : ℚ) + ((10 : ℚ) - 0) / 2
        y := (2 : ℚ) + ((0 : ℚ) - 0) / 2 }) ∧
    ((dragGroupMove [⟨"g1", "A", [], 1, 2⟩, ⟨"g2", "B", [], 7, 8⟩] 0 (1, 2) (0, 0) (10, 0)
        2)[1]? = some ⟨"g2", "B", [], 7, 8⟩) :=
  ⟨(dragGroupMove_spec [⟨"g1", "A", [], 1, 2⟩, ⟨"g2", "B", [], 7, 8⟩] 0 (1, 2) (0, 0)
      (10, 0) 2 0 ⟨"g1", "A", [], 1, 2⟩ rfl).1 rfl,
   (dragGroupMove_spec [⟨"g1", "A", [], 1, 2⟩, ⟨"g2", "B", [], 7, 8⟩] 0 (1, 2) (0, 0)
      (10, 0) 2 1 ⟨"g2", "B", [], 7, 8⟩ rfl).2 (by decide)⟩

/-- The edit branch of `handleSaveFavorite` (source lines 229-236): in every
group, every favorite whose id equals the edited favorite's id is replaced by
the edited data; everything else is kept. -/
def editFavorite (upd : Favorite) (gs : List Group) : List Group :=
  gs.map fun g =>
    { g with favorites := g.favorites.map fun f => if f.id = upd.id then upd else f }

/-- Claim C10: editing a favorite preserves the number of groups and, for
every group, its id, name, anchor and favorite-list length; positionally,
the favorite at index `j` becomes the edited data when its id matches and is
returned unchanged otherwise — so an edit never reorders favorites or moves
one between groups. -/
theorem editFavorite_spec (gs : List Group) (upd : Favorite) :
    (editFavorite upd gs).length = gs.length ∧
    ∀ (i : ℕ) (g : Group), gs[i]? = some g →
      ∃ g', (editFavorite upd gs)[i]? = some g' ∧
        g'.id = g.id ∧ g'.name = g.name ∧ g'.x = g.x ∧ g'.y = g.y ∧
        g'.favorites.length = g.favorites.length ∧
        ∀ (j : ℕ) (f : Favorite), g.favorites[j]? = some f →
          (f.id = upd.id → g'.favorites[j]? = some upd) ∧
          (f.id ≠ upd.id → g'.favorites[j]? = some f) := by
  constructor
  · simp [editFavorite]
  · intro i g hg
    refine ⟨{ g with favorites := g.favorites.map fun f => if f.id = upd.id then upd else f },
      ?_, rfl, rfl, rfl, rfl, by simp, ?_⟩
    · simp [editFavorite, List.getElem?_map, hg]
    · intro j f hf
      constructor
      · intro h
        simp [List.getElem?_map, hf, if_pos h]
      · intro h
        simp [List.getElem?_map, hf, if_neg h]

/-- Witness for C10: editing favorite `f1` in a two-favorite group replaces
exactly the favorite with that id and leaves the other favorite in place. -/
theorem editFavorite_spec_witness :
    ∃ g', (editFavorite ⟨"f1", .web, "new", "u2", none, none, none⟩
        [⟨"g1", "A", [⟨"f1", .web, "old", "u", none, none, none⟩,
          ⟨"f2", .teams, "other", "u", none, none, none⟩], 0, 0⟩])[0]? = some g' ∧
      g'.id = "g1" ∧ g'.name = "A" ∧ g'.x = 0 ∧ g'.y = 0 ∧
      g'.favorites.length = 2 ∧
      g'.favorites[0]? = some ⟨"f1", .web, "new", "u2", none, none, none⟩ ∧
      g'.favorites[1]? = some ⟨"f2", .teams, "other", "u", none, none, none⟩ := by
  obtain ⟨-, h⟩ := editFavorite_spec
    [⟨"g1", "A", [⟨"f1", .web, "old", "u", none, none, none⟩,
      ⟨"f2", .teams, "other", "u", none, none, none⟩], 0, 0⟩]
    ⟨"f1", .web, "new", "u2", none, none, none⟩
  obtain ⟨g', hg', hid, hname, hx, hy, hlen, hfav⟩ := h 0
    ⟨"g1", "A", [⟨"f1", .web, "old", "u", none, none, none⟩,
      ⟨"f2", .teams, "other", "u", none, none, none⟩], 0, 0⟩ rfl
  exact ⟨g', hg', hid, hname, hx, hy, hlen,
    (hfav 0 ⟨"f1", .web, "old", "u", none, none, none⟩ rfl).1 rfl,
    (hfav 1 ⟨"f2", .teams, "other", "u", none, none, none⟩ rfl).2 (by decide)⟩

/-- The board update of `handleTravelEnd` (source lines 365-375): the group
whose id is `fromId` keeps only the favorites whose id differs from the moved
item's id; otherwise, the group whose id is `toId` gets the item appended;
every other group passes through unchanged. -/
def commitMove (fromId toId : String) (item : Favorite) (gs : List Group) : List Group :=
  gs.map fun g =>
    if g.id = fromId then
      { g with favorites := g.favorites.filter fun f => f.id ≠ item.id }
    else if g.id = toId then
      { g with favorites := g.favorites ++ [item] }
    else g

/-- Total number of favorites on the board. -/
def totalFavs (gs : List Group) : ℕ :=
  (gs.map fun g => g.favorites.length).sum

/-- Number of favorites with id `i` across the whole board. -/
def boardIdOcc (gs : List Group) (i : String) : ℕ :=
  (gs.map fun g => g.favorites.countP fun f => f.id = i).sum

lemma filter_ne_length_add (i : String) : ∀ l : List Favorite,
    (l.filter fun f => f.id ≠ i).length + l.countP (fun f => f.id = i) = l.length
  | [] => rfl
  | x :: l => by
    have ih := filter_ne_length_add i l
    by_cases h : x.id = i
    · simp only [List.filter_cons, List.countP_cons]
      rw [if_neg (by simp [h]), if_pos (by simp [h])]
      simp only [List.length_cons]
      omega
    · simp only [List.filter_cons, List.countP_cons]
      rw [if_pos (by simp [h]), if_neg (by simp [h])]
      simp only [List.length_cons]
      omega

lemma totalFavs_cons (g : Group) (gs : List Group) :
    totalFavs (g :: gs) = g.favorites.length + totalFavs gs := by
  simp [totalFavs]

lemma commitMove_cons (fromId toId : String) (item : Favorite) (g : Group)
    (gs : List Group) :
    commitMove fromId toId item (g :: gs) =
      (if g.id = fromId then
        { g with favorites := g.favorites.filter fun f => f.id ≠ item.id }
      else if g.id = toId then
        { g with favorites := g.favorites ++ [item] }
      else g) :: commitMove fromId toId item gs := by
  simp [commitMove]

lemma totalFavs_commitMove_aux (fromId toId : String) (item : Favorite)
    (hne : fromId ≠ toId) : ∀ gs : List Group,
    totalFavs (commitMove fromId toId item gs) +
      (gs.map fun g =>
        if g.id = fromId then g.favorites.countP (fun x => x.id = item.id) else 0).sum =
    totalFavs gs + gs.countP (fun g => g.id = toId)
  | [] => rfl
  | g :: gs => by
    have ih := totalFavs_commitMove_aux fromId toId item hne gs
    have hflt := filter_ne_length_add item.id g.favorites
    rw [commitMove_cons, totalFavs_cons, totalFavs_cons, List.map_cons, List.sum_cons,
      List.countP_cons]
    by_cases h1 : g.id = fromId
    · have h2 : ¬ g.id = toId := fun hh => hne (h1.symm.trans hh)
      rw [if_pos h1, if_pos h1, if_neg (by simp [h2])]
      simp only [totalFavs_cons]
      omega
    · by_cases h2 : g.id = toId
      · rw [if_neg h1, if_neg h1, if_pos h2, if_pos (by simp [h2])]
        simp only [totalFavs_cons, List.length_append, List.length_cons, List.length_nil]
        omega
      · rw [if_neg h1, if_neg h1, if_neg h2, if_neg (by simp [h2])]
        omega

/-- Claim C1: committing a cross-group move of favorite `f` from group `a` to
a distinct group `b` (with `f` owned by `a`, `f.id` unique on the board and
group ids unique) yields a board on which no favorite with `f`'s id remains in
the group with `a`'s id, the group with `b`'s id has `f` itself (id included)
as the last element of its list, the total number of favorites is unchanged,
and every group whose id is neither `a`'s nor `b`'s is unchanged at its
position. -/
theorem commitMove_spec (gs : List Group) (a b : Group) (f : Favorite)
    (ha : a ∈ gs) (hb : b ∈ gs) (hab : a.id ≠ b.id) (hf : f ∈ a.favorites)
    (hocc : boardIdOcc gs f.id = 1)
    (hbcount : gs.countP (fun g => g.id = b.id) = 1) :
    (∀ g' ∈ commitMove a.id b.id f gs, g'.id = a.id →
        ∀ x ∈ g'.favorites, x.id ≠ f.id) ∧
    (∃ g' ∈ commitMove a.id b.id f gs, g'.id = b.id ∧
        g'.favorites.getLast? = some f) ∧
    totalFavs (commitMove a.id b.id f gs) = totalFavs gs ∧
    (commitMove a.id b.id f gs).length = gs.length ∧
    (∀ (i : ℕ) (g : Group), gs[i]? = some g → g.id ≠ a.id → g.id ≠ b.id →
      (commitMove a.id b.id f gs)[i]? = some g) := by
  refine ⟨?_, ?_, ?_, by simp [commitMove], ?_⟩
  · intro g' hg' hid x hx
    obtain ⟨g, hgmem, hEq⟩ := List.mem_map.mp hg'
    by_cases h1 : g.id = a.id
    · rw [if_pos h1] at hEq
      subst hEq
      have hmem := List.mem_filter.mp hx
      simpa using hmem.2
    · rw [if_neg h1] at hEq
      by_cases h2 : g.id = b.id
      · rw [if_pos h2] at hEq
        subst hEq
        exact absurd hid h1
      · rw [if_neg h2] at hEq
        subst hEq
        exact absurd hid h1
  · refine ⟨{ b with favorites := b.favorites ++ [f] }, ?_, rfl, List.getLast?_concat _⟩
    refine List.mem_map.mpr ⟨b, hb, ?_⟩
    rw [if_neg (fun h => hab h.symm), if_pos rfl]
  · have key := totalFavs_commitMove_aux a.id b.id f hab gs
    have hψ : (gs.map fun g =>
        if g.id = a.id then g.favorites.countP (fun x => x.id = f.id) else 0).sum = 1 := by
      have h1 : (if a.id = a.id then a.favorites.countP (fun x => x.id = f.id) else 0) ≤
          (gs.map fun g =>
            if g.id = a.id then g.favorites.countP (fun x => x.id = f.id) else 0).sum :=
        List.le_sum_of_mem (List.mem_map_of_mem _ ha)
      rw [if_pos rfl] at h1
      have h2 : 0 < a.favorites.countP (fun x => x.id = f.id) :=
        List.countP_pos_iff.mpr ⟨f, hf, by simp⟩
      have h3 : (gs.map fun g =>
          if g.id = a.id then g.favorites.countP (fun x => x.id = f.id) else 0).sum ≤
          boardIdOcc gs f.id := by
        unfold boardIdOcc
        refine List.sum_le_sum fun g _ => ?_
        by_cases h : g.id = a.id
        · rw [if_pos h]
        · rw [if_neg h]
          exact Nat.zero_le _
      omega
    rw [hψ, hbcount] at key
    omega
  · intro i g hg h1 h2
    simp [commitMove, List.getElem?_map, hg, if_neg h1, if_neg h2]

/-- Witness for C1: moving `f1` from group `g1` to group `g2` on a concrete
two-group board keeps the total favorite count at `2`. -/
theorem commitMove_spec_witness :
    totalFavs (commitMove "g1" "g2" ⟨"f1", .web, "n", "u", none, none, none⟩
      [⟨"g1", "A", [⟨"f1", .web, "n", "u", none, none, none⟩], 0, 0⟩,
       ⟨"g2", "B", [⟨"f2", .teams, "m", "v", none, none, none⟩], 0, 0⟩]) =
    totalFavs
      [⟨"g1", "A", [⟨"f1", .web, "n", "u", none, none, none⟩], 0, 0⟩,
       ⟨"g2", "B", [⟨"f2", .teams, "m", "v", none, none, none⟩], 0, 0⟩] :=
  (commitMove_spec
    [⟨"g1", "A", [⟨"f1", .web, "n", "u", none, none, none⟩], 0, 0⟩,
     ⟨"g2", "B", [⟨"f2", .teams, "m", "v", none, none, none⟩], 0, 0⟩]
    ⟨"g1", "A", [⟨"f1", .web, "n", "u", none, none, none⟩], 0, 0⟩
    ⟨"g2", "B", [⟨"f2", .teams, "m", "v", none, none, none⟩], 0, 0⟩
    ⟨"f1", .web, "n", "u", none, none, none⟩
    (by decide) (by decide) (by decide) (by decide) (by decide) (by decide)).2.2.1

/-- Counterexample for C6 as stated: a pending move of `f1` from `g1` to `g2`
whose source `g1` no longer contains `f1` (it already lives in `g2`).  The
claim says the commit is a no-op on the board, but `handleTravelEnd`
unconditionally appends the item to the destination group, duplicating it. -/
theorem commitMove_already_moved_counterexample :
    commitMove "g1" "g2" ⟨"f1", .web, "n", "u", none, none, none⟩
      [⟨"g1", "A", [], 0, 0⟩,
       ⟨"g2", "B", [⟨"f1", .web, "n", "u", none, none, none⟩], 0, 0⟩] ≠
    [⟨"g1", "A", [], 0, 0⟩,
     ⟨"g2", "B", [⟨"f1", .web, "n", "u", none, none, none⟩], 0, 0⟩] := by
  decide

/-- Claim C6 (amended): when the source group no longer contains the favorite,
the commit does not fail and leaves the source group (the filter removes
nothing) and every group other than the destination unchanged, but it is not a
no-op: the item is appended to the destination group's list again. -/
theorem commitMove_already_moved (gs : List Group) (fromId toId : String)
    (item : Favorite)
    (habsent : ∀ g ∈ gs, g.id = fromId → ∀ x ∈ g.favorites, x.id ≠ item.id) :
    commitMove fromId toId item gs =
      gs.map fun g =>
        if g.id = fromId then g
        else if g.id = toId then { g with favorites := g.favorites ++ [item] }
        else g := by
  refine List.map_congr_left fun g hg => ?_
  by_cases h1 : g.id = fromId
  · rw [if_pos h1, if_pos h1]
    have hfix : g.favorites.filter (fun f => f.id ≠ item.id) = g.favorites :=
      List.filter_eq_self.mpr fun x hx => by
        simpa using habsent g hg h1 x hx
    rw [hfix]
  · rw [if_neg h1, if_neg h1]

/-- Witness for the amended C6 on the counterexample board: the source group
passes through unchanged and the destination group gains a duplicate. -/
theorem commitMove_already_moved_witness :
    commitMove "g1" "g2" ⟨"f1", .web, "n", "u", none, none, none⟩
      [⟨"g1", "A", [], 0, 0⟩,
       ⟨"g2", "B", [⟨"f1", .web, "n", "u", none, none, none⟩], 0, 0⟩] =
    [⟨"g1", "A", [], 0, 0⟩,
     ⟨"g2", "B", [⟨"f1", .web, "n", "u", none, none, none⟩], 0, 0⟩].map
      (fun g =>
        if g.id = "g1" then g
        else if g.id = "g2" then
          { g with favorites :=
              g.favorites ++ [⟨"f1", .web, "n", "u", none, none, none⟩] }
        else g) :=
  commitMove_already_moved
    [⟨"g1", "A", [], 0, 0⟩,
     ⟨"g2", "B", [⟨"f1", .web, "n", "u", none, none, none⟩], 0, 0⟩]
    "g1" "g2" ⟨"f1", .web, "n", "u", none, none, none⟩ (by decide)

/-- The `TravelingItem` record of src/index.tsx. -/
structure TravelingItem where
  item : Favorite
  startPos : ℝ × ℝ
  endPos : ℝ × ℝ
  fromGroupId : String
  toGroupId : String

/-- The `handleDrop` handler (source lines 335-360).  Inputs are the drag refs
(`dragItem.current`, `dragOverGroup.current`), the board, and the current
`travelingItem` state; the result is the (never modified) board and the
possibly updated `travelingItem`.  When the guard at line 336 aborts, nothing
changes.  Otherwise the transit end position is the orbit slot the item would
occupy as the last member of the destination group after a hypothetical
append.  The source's non-null assertion on `groups.find(...)` and the check
that `startPos` exists are modelled by the fall-through case that starts no
transit. -/
noncomputable def handleDrop (gs : List Group) (dragItem : Option (String × Favorite))
    (dragOver : Option String) (traveling : Option TravelingItem) :
    List Group × Option TravelingItem :=
  match dragItem, dragOver with
  | some (fromId, item), some toId =>
    if fromId = toId then (gs, traveling)
    else
      match planetPositions gs item.id, gs.find? (fun g => g.id = toId) with
      | some startPos, some toGroup =>
        (gs, some ⟨item, startPos,
          ((toGroup.x : ℝ) + ORBIT_RADIUS *
              Real.cos (orbitAngle toGroup.favorites.length (toGroup.favorites.length + 1)),
           (toGroup.y : ℝ) + ORBIT_RADIUS *
              Real.sin (orbitAngle toGroup.favorites.length (toGroup.favorites.length + 1))),
          fromId, toId⟩)
      | _, _ => (gs, traveling)
  | _, _ => (gs, traveling)

/-- Claim C7: a drop with no grabbed item, no recorded destination group, or a
destination equal to the source group aborts the protocol: the board is not
mutated and no transit is started (the traveling-item state is unchanged). -/
theorem handleDrop_abort (gs : List Group) (di : Option (String × Favorite))
    (dog : Option String) (t : Option TravelingItem)
    (h : di = none ∨ dog = none ∨ ∃ fid item, di = some (fid, item) ∧ dog = some fid) :
    handleDrop gs di dog t = (gs, t) := by
  rcases h with h | h | ⟨fid, item, hdi, hdog⟩
  · subst h
    cases dog <;> rfl
  · subst h
    cases di with
    | none => rfl
    | some p =>
      cases p
      rfl
  · subst hdi
    subst hdog
    simp [handleDrop]

/-- Witness for C7: a drop with nothing grabbed changes nothing. -/
theorem handleDrop_abort_witness :
    handleDrop [⟨"g1", "A", [], 0, 0⟩] none (some "g1") none =
      ([⟨"g1", "A", [], 0, 0⟩], none) :=
  handleDrop_abort [⟨"g1", "A", [], 0, 0⟩] none (some "g1") none (Or.inl rfl)

/-- Substring test: `containsSub needle hay` holds iff `needle` occurs
contiguously in `hay`; this is JS `hay.includes(needle)`. -/
def containsSub (needle : List Char) : List Char → Bool
  | [] => needle.isEmpty
  | c :: rest => needle.isPrefixOf (c :: rest) || containsSub needle rest

/-- Character-wise lowercasing of a string, as `String.toLowerCase`. -/
def lowerData (s : String) : List Char := s.data.map Char.toLower

/-- Blankness test: JS `query.trim()` is falsy exactly when every character of
the query is whitespace. -/
def isBlank (s : String) : Bool := s.data.all Char.isWhitespace

/-- The per-favorite match test of the `searchResults` memo (source lines
117-125): the lowercased group name, favorite name, favorite URL or favorite
type must contain the lowercased query. -/
def favMatches (q : List Char) (gname : String) (f : Favorite) : Bool :=
  containsSub q (lowerData gname) || containsSub q (lowerData f.name) ||
    containsSub q (lowerData f.url) || containsSub q (lowerData f.type.str)

/-- The `searchResults` memo (source lines 106-135): `none` for a blank query,
otherwise the set of matching favorite ids and the set of ids of groups with
at least one matching favorite. -/
def searchResults (gs : List Group) (query : String) :
    Option (Finset String × Finset String) :=
  if isBlank query then none
  else
    some
      ((gs.flatMap fun g =>
          (g.favorites.filter (favMatches (lowerData query) g.name)).map Favorite.id).toFinset,
       ((gs.filter fun g =>
          g.favorites.any (favMatches (lowerData query) g.name)).map Group.id).toFinset)

/-- Modelled from the words of claim C2: a favorite matches when its own name,
URL or kind-tag contains the query — the owning group's name is not
consulted. -/
def claimFavMatches (q : List Char) (f : Favorite) : Bool :=
  containsSub q (lowerData f.name) || containsSub q (lowerData f.url) ||
    containsSub q (lowerData f.type.str)

/-- Modelled from the words of claim C2: the favorite-id set uses
`claimFavMatches` only, and the group-id set contains the groups with a
matching favorite or with a matching group name. -/
def claimSearchResults (gs : List Group) (query : String) :
    Option (Finset String × Finset String) :=
  if isBlank query then none
  else
    some
      ((gs.flatMap fun g =>
          (g.favorites.filter (claimFavMatches (lowerData query))).map Favorite.id).toFinset,
       ((gs.filter fun g =>
          g.favorites.any (claimFavMatches (lowerData query)) ||
            containsSub (lowerData query) (lowerData g.name)).map Group.id).toFinset)

/-- Counterexample for C2 as stated: with the query `"work"`, a favorite whose
own fields do not contain the query is matched by the code because its owning
group is named `"Work Tools"`, and the favorite-less group named `"work hub"`
is matched by the claim but not by the code. -/
theorem searchResults_counterexample :
    searchResults
      [⟨"g1", "Work Tools", [⟨"f1", .web, "Alpha", "#", none, none, none⟩], 0, 0⟩,
       ⟨"g2", "work hub", [], 0, 0⟩] "work" ≠
    claimSearchResults
      [⟨"g1", "Work Tools", [⟨"f1", .web, "Alpha", "#", none, none, none⟩], 0, 0⟩,
       ⟨"g2", "work hub", [], 0, 0⟩] "work" := by
  decide

/-- Claim C2 (amended): a blank query yields no filtering (`none`).  For a
non-blank query the computed favorite-id set contains exactly the favorites
whose owning group's name, own name, URL or kind-tag case-insensitively
contains the query, and the group-id set contains exactly the groups owning at
least one such favorite (so a matching group name marks all the group's
favorites as matches, and a group with no favorites is never matched). -/
theorem searchResults_characterization (gs : List Group) (query : String) :
    (isBlank query = true → searchResults gs query = none) ∧
    (isBlank query = false → ∃ favIds groupIds,
      searchResults gs query = some (favIds, groupIds) ∧
      (∀ i : String, i ∈ favIds ↔ ∃ g ∈ gs, ∃ f ∈ g.favorites, f.id = i ∧
        (containsSub (lowerData query) (lowerData g.name) = true ∨
         containsSub (lowerData query) (lowerData f.name) = true ∨
         containsSub (lowerData query) (lowerData f.url) = true ∨
         containsSub (lowerData query) (lowerData f.type.str) = true)) ∧
      (∀ i : String, i ∈ groupIds ↔ ∃ g ∈ gs, g.id = i ∧ ∃ f ∈ g.favorites,
        (containsSub (lowerData query) (lowerData g.name) = true ∨
         containsSub (lowerData query) (lowerData f.name) = true ∨
         containsSub (lowerData query) (lowerData f.url) = true ∨
         containsSub (lowerData query) (lowerData f.type.str) = true))) := by
  constructor
  · intro h
    simp [searchResults, h]
  · intro h
    refine ⟨(gs.flatMap fun g =>
        (g.favorites.filter (favMatches (lowerData query) g.name)).map Favorite.id).toFinset,
      ((gs.filter fun g =>
        g.favorites.any (favMatches (lowerData query) g.name)).map Group.id).toFinset,
      by simp [searchResults, h], ?_, ?_⟩
    · intro i
      simp only [List.mem_toFinset, List.mem_flatMap, List.mem_map, List.mem_filter,
        favMatches, Bool.or_eq_true]
      constructor
      · rintro ⟨g, hg, f, ⟨hf, hm⟩, rfl⟩
        exact ⟨g, hg, f, hf, rfl, by tauto⟩
      · rintro ⟨g, hg, f, hf, rfl, hm⟩
        exact ⟨g, hg, f, ⟨hf, by tauto⟩, rfl⟩
    · intro i
      simp only [List.mem_toFinset, List.mem_map, List.mem_filter, List.any_eq_true,
        favMatches, Bool.or_eq_true]
      constructor
      · rintro ⟨g, ⟨hg, f, hf, hm⟩, rfl⟩
        exact ⟨g, hg, rfl, f, hf, by tauto⟩
      · rintro ⟨g, hg, rfl, f, hf, hm⟩
        exact ⟨g, ⟨hg, f, hf, by tauto⟩, rfl⟩

/-- Witness for C2 on the blank query: searching `""` filters nothing. -/
theorem searchResults_characterization_witness :
    searchResults
      [⟨"g1", "Work Tools", [⟨"f1", .web, "Alpha", "#", none, none, none⟩], 0, 0⟩]
      "" = none :=
  (searchResults_characterization
    [⟨"g1", "Work Tools", [⟨"f1", .web, "Alpha", "#", none, none, none⟩], 0, 0⟩]
    "").1 rfl

/-- JSON values, as produced by `JSON.parse`. -/
inductive Json where
  | null
  | bool (b : Bool)
  | num (q : ℚ)
  | str (s : String)
  | arr (xs : List Json)
  | obj (fields : List (String × Json))

/-- Whether a JSON value is an object owning the field `k` (the JS
`'k' in g` test, which is false on arrays and throws on primitives —
the throwing case is handled separately in `elemHasKeys`). -/
def jsonHasField (j : Json) (k : String) : Bool :=
  match j with
  | .obj fields => fields.any fun p => p.1 = k
  | _ => false

/-- One element's validation step `'id' in g && 'name' in g && 'favorites' in g`
(source line 290): on an object or an array it evaluates to a Boolean; on a
primitive the `in` operator throws a `TypeError`, modelled as `Except.error`. -/
def elemHasKeys (j : Json) : Except Unit Bool :=
  match j with
  | .obj _ => .ok (jsonHasField j "id" && jsonHasField j "name" && jsonHasField j "favorites")
  | .arr _ => .ok false
  | _ => .error ()

/-- The short-circuiting `importedGroups.every(...)` loop: stops at the first
element whose check is false, and propagates a thrown `TypeError`. -/
def checkElems : List Json → Except Unit Bool
  | [] => .ok true
  | j :: rest =>
    match elemHasKeys j with
    | .error e => .error e
    | .ok false => .ok false
    | .ok true => checkElems rest

/-- Outcome of `handleImport`'s reader callback (source lines 286-300). -/
inductive ImportResult where
  | parseError
  | invalidFormat
  | accepted (xs : List Json)

/-- The decision logic of `handleImport`: a document that fails to parse
(`doc = none`) or whose validation throws lands in the `catch` branch;
a non-array document or an array with an element failing the key check is
alerted as invalid; otherwise the document is accepted. -/
def runImport (doc : Option Json) : ImportResult :=
  match doc with
  | none => .parseError
  | some (Json.arr xs) =>
    match checkElems xs with
    | .error _ => .parseError
    | .ok true => .accepted xs
    | .ok false => .invalidFormat
  | some _ => .invalidFormat

/-- Whether the imported document is accepted. -/
def importAccepts (doc : Option Json) : Bool :=
  match runImport doc with
  | .accepted _ => true
  | _ => false

/-- The user-visible alert of each outcome (source lines 295 and 298);
acceptance shows no alert. -/
def importMessage : ImportResult → Option String
  | .parseError => some "Error reading or parsing the file."
  | .invalidFormat => some "Invalid file format."
  | .accepted _ => none

/-- The board after the import handler runs: only an accepted document that
the user confirms replaces the board (source lines 291-293).  The source
assigns the raw parsed value to the groups state; `decode` stands for that
raw adoption and is irrelevant to the rejection paths. -/
def importBoardAfter (board : List Group) (decode : List Json → List Group)
    (doc : Option Json) (confirm : Bool) : List Group :=
  match runImport doc with
  | .accepted xs => if confirm then decode xs else board
  | _ => board

/-- Claim C9: an imported document is accepted exactly when it parses to an
array in which every element is an object carrying `id`, `name` and
`favorites` fields; on a parse failure or a failed structural check a
user-visible message is produced and the board is left unchanged, whatever
the confirmation answer. -/
theorem handleImport_spec (doc : Option Json) :
    (importAccepts doc = true ↔ ∃ xs, doc = some (Json.arr xs) ∧
      ∀ j ∈ xs, jsonHasField j "id" = true ∧ jsonHasField j "name" = true ∧
        jsonHasField j "favorites" = true) ∧
    (importAccepts doc = false →
      importMessage (runImport doc) ≠ none ∧
      ∀ (board : List Group) (decode : List Json → List Group) (confirm : Bool),
        importBoardAfter board decode doc confirm = board) := by
  have hcheck : ∀ xs : List Json, checkElems xs = .ok true ↔
      ∀ j ∈ xs, jsonHasField j "id" = true ∧ jsonHasField j "name" = true ∧
        jsonHasField j "favorites" = true := by
    intro xs
    induction xs with
    | nil => simp [checkElems]
    | cons j rest ih =>
      cases j with
      | obj fields =>
        by_cases h1 : jsonHasField (Json.obj fields) "id" = true
        · by_cases h2 : jsonHasField (Json.obj fields) "name" = true
          · by_cases h3 : jsonHasField (Json.obj fields) "favorites" = true
            · have hb : elemHasKeys (Json.obj fields) = .ok true := by
                simp [elemHasKeys, h1, h2, h3]
              simp [checkElems, hb, ih, h1, h2, h3, List.forall_mem_cons]
            · simp only [Bool.not_eq_true] at h3
              have hb : elemHasKeys (Json.obj fields) = .ok false := by
                simp [elemHasKeys, h3]
              simp only [checkElems, hb, List.forall_mem_cons]
              constructor
              · intro hfalse
                exact absurd hfalse (by simp)
              · intro hall
                exact absurd hall.1.2.2 (by simp [h3])
          · simp only [Bool.not_eq_true] at h2
            have hb : elemHasKeys (Json.obj fields) = .ok false := by
              simp [elemHasKeys, h2]
            simp only [checkElems, hb, List.forall_mem_cons]
            constructor
            · intro hfalse
              exact absurd hfalse (by simp)
            · intro hall
              exact absurd hall.1.2.1 (by simp [h2])
        · simp only [Bool.not_eq_true] at h1
          have hb : elemHasKeys (Json.obj fields) = .ok false := by
            simp [elemHasKeys, h1]
          simp only [checkElems, hb, List.forall_mem_cons]
          constructor
          · intro hfalse
            exact absurd hfalse (by simp)
          · intro hall
            exact absurd hall.1.1 (by simp [h1])
      | arr ys =>
        refine ⟨by simp [checkElems, elemHasKeys], fun hall => ?_⟩
        have := (hall (Json.arr ys) (by simp)).1
        simp [jsonHasField] at this
      | null =>
        refine ⟨by simp [checkElems, elemHasKeys], fun hall => ?_⟩
        have := (hall Json.null (by simp)).1
        simp [jsonHasField] at this
      | bool b =>
        refine ⟨by simp [checkElems, elemHasKeys], fun hall => ?_⟩
        have := (hall (Json.bool b) (by simp)).1
        simp [jsonHasField] at this
      | num q =>
        refine ⟨by simp [checkElems, elemHasKeys], fun hall => ?_⟩
        have := (hall (Json.num q) (by simp)).1
        simp [jsonHasField] at this
      | str s =>
        refine ⟨by simp [checkElems, elemHasKeys], fun hall => ?_⟩
        have := (hall (Json.str s) (by simp)).1
        simp [jsonHasField] at this
  constructor
  · constructor
    · intro hacc
      match hdoc : doc with
      | none => simp [importAccepts, runImport, hdoc] at hacc
      | some (Json.arr xs) =>
        refine ⟨xs, rfl, (hcheck xs).mp ?_⟩
        by_cases hc : checkElems xs = .ok true
        · exact hc
        · exfalso
          simp only [importAccepts, runImport] at hacc
          match hce : checkElems xs with
          | .error e => rw [hce] at hacc; simp at hacc
          | .ok true => exact hc hce
          | .ok false => rw [hce] at hacc; simp at hacc
      | some Json.null => simp [importAccepts, runImport, hdoc] at hacc
      | some (Json.bool b) => simp [importAccepts, runImport, hdoc] at hacc
      | some (Json.num q) => simp [importAccepts, runImport, hdoc] at hacc
      | some (Json.str s) => simp [importAccepts, runImport, hdoc] at hacc
      | some (Json.obj fields) => simp [importAccepts, runImport, hdoc] at hacc
    · rintro ⟨xs, rfl, hall⟩
      simp [importAccepts, runImport, (hcheck xs).mpr hall]
  · intro hrej
    have hno : ∀ xs, runImport doc ≠ .accepted xs := by
      intro xs hx
      simp [importAccepts, hx] at hrej
    constructor
    · match hri : runImport doc with
      | .parseError => simp [importMessage]
      | .invalidFormat => simp [importMessage]
      | .accepted xs => exact absurd hri (hno xs)
    · intro board decode confirm
      unfold importBoardAfter
      match hri : runImport doc with
      | .parseError => rfl
      | .invalidFormat => rfl
      | .accepted xs => exact absurd hri (hno xs)

/-- Witness for C9: a document that parses to a bare string is rejected with
a message and leaves a concrete board untouched. -/
theorem handleImport_spec_witness :
    importMessage (runImport (some (Json.str "x"))) ≠ none ∧
    importBoardAfter [⟨"g1", "A", [], 0, 0⟩] (fun _ => []) (some (Json.str "x")) true =
      [⟨"g1", "A", [], 0, 0⟩] :=
  ⟨((handleImport_spec (some (Json.str "x"))).2 rfl).1,
   ((handleImport_spec (some (Json.str "x"))).2 rfl).2 [⟨"g1", "A", [], 0, 0⟩]
     (fun _ => []) true⟩

end VF
